import Mathlib

/-!
A shallow embedding of the bond-analytics core of the repository
(`Financial_Hard.py`) and proofs about its specification.

Modelling decisions:
* Python floats are modelled as exact rationals (ℚ); the spec states its
  numeric properties mathematically ("exactly", "within floating-point
  tolerance"), and every computation in the program is a composition of
  field operations and integer powers, so ℚ is a faithful carrier.
* Python exceptions are modelled with `Except PyErr`: `ZeroDivisionError`
  raised by `/` (and by `Calculator.divide`) becomes `PyErr.zeroDivision`,
  and the `IndexError` raised by `cash_flows[-1]` on an empty list becomes
  `PyErr.indexError`.
* `Calculator.power` (Python `**`) is only ever applied to nonnegative
  integer exponents in the program (periods `t`, `t + 2`, and the literal
  `2`), so its exponent is modelled as ℕ.
* Python `int` parameters (`maturity_years`, `payments_per_year`) are
  modelled as ℤ, since the constructor performs no validation and the spec
  discusses zero and negative values for them.
-/

/-- The two Python exception kinds the program can raise. -/
inductive PyErr where
  | zeroDivision
  | indexError
deriving DecidableEq, Repr

instance instDecEqExcept {E A : Type} [DecidableEq E] [DecidableEq A] :
    DecidableEq (Except E A) := fun x y =>
  match x, y with
  | .error a, .error b =>
    if h : a = b then isTrue (by rw [h])
    else isFalse (fun hc => by cases hc; exact h rfl)
  | .ok a, .ok b =>
    if h : a = b then isTrue (by rw [h])
    else isFalse (fun hc => by cases hc; exact h rfl)
  | .error a, .ok b => isFalse (fun hc => by cases hc)
  | .ok a, .error b => isFalse (fun hc => by cases hc)

/-- Python float division `a / b`: raises `ZeroDivisionError` when `b == 0`. -/
def divQ (a b : ℚ) : Except PyErr ℚ :=
  if b = 0 then .error .zeroDivision else .ok (a / b)

namespace Calculator

/-- `Calculator.add`. -/
def add (a b : ℚ) : ℚ := a + b

/-- `Calculator.subtract`. -/
def subtract (a b : ℚ) : ℚ := a - b

/-- `Calculator.multiply`. -/
def multiply (a b : ℚ) : ℚ := a * b

/-- `Calculator.divide`: guarded division, raising `ZeroDivisionError`
when `b == 0`. -/
def divide (a b : ℚ) : Except PyErr ℚ :=
  if b = 0 then .error .zeroDivision else .ok (a / b)

/-- `Calculator.power`: `base ** exponent`.  Every call site in the program
passes a nonnegative integer exponent. -/
def power (base : ℚ) (exponent : ℕ) : ℚ := base ^ exponent

end Calculator

namespace FinancialCalculator

/-- `FinancialCalculator.present_value`: `CF / (1 + r)^t` via
`power` and `divide`. -/
def present_value (cash_flow rate : ℚ) (period : ℕ) : Except PyErr ℚ :=
  let discount_factor := Calculator.power (1 + rate) period
  Calculator.divide cash_flow discount_factor

/-- `FinancialCalculator.future_value`: `CF * (1 + r)^t`. -/
def future_value (cash_flow rate : ℚ) (period : ℕ) : ℚ :=
  let growth_factor := Calculator.power (1 + rate) period
  Calculator.multiply cash_flow growth_factor

end FinancialCalculator

/-- The `Bond` instance after `__init__` has run: the five constructor
arguments plus the three derived attributes. -/
structure Bond where
  face_value : ℚ
  coupon_rate : ℚ
  yield_to_maturity : ℚ
  maturity_years : ℤ
  payments_per_year : ℤ
  total_periods : ℤ
  periodic_coupon : ℚ
  periodic_yield : ℚ
deriving DecidableEq, Repr

namespace Bond

/-- `Bond.__init__`: stores the arguments and computes the derived
attributes.  The two Python float divisions by `payments_per_year` raise
`ZeroDivisionError` when it is zero; no other validation is performed. -/
def init (face_value coupon_rate yield_to_maturity : ℚ)
    (maturity_years payments_per_year : ℤ) : Except PyErr Bond := do
  let periodic_coupon ← divQ (face_value * coupon_rate) (payments_per_year : ℚ)
  let periodic_yield ← divQ yield_to_maturity (payments_per_year : ℚ)
  pure { face_value := face_value
         coupon_rate := coupon_rate
         yield_to_maturity := yield_to_maturity
         maturity_years := maturity_years
         payments_per_year := payments_per_year
         total_periods := maturity_years * payments_per_year
         periodic_coupon := periodic_coupon
         periodic_yield := periodic_yield }

/-- `Bond._cash_flows`: `[periodic_coupon] * total_periods`, then
`cash_flows[-1] += face_value`.  Python list repetition with a
non-positive count yields the empty list (hence `Int.toNat`), and
indexing `[-1]` into the empty list raises `IndexError`. -/
def cashFlows (b : Bond) : Except PyErr (List ℚ) :=
  let cash_flows := List.replicate b.total_periods.toNat b.periodic_coupon
  match cash_flows.getLast? with
  | none => .error .indexError
  | some last => .ok (cash_flows.dropLast ++ [last + b.face_value])

/-- `Bond.price`: sum of `present_value(cf, periodic_yield, t)` over the
cash flows enumerated from `t = 1`. -/
def price (b : Bond) : Except PyErr ℚ := do
  let cfs ← b.cashFlows
  (List.enumFrom 1 cfs).foldlM
    (fun acc tcf => do
      let pv ← FinancialCalculator.present_value tcf.2 b.periodic_yield tcf.1
      pure (acc + pv))
    0

/-- `Bond.macaulay_duration`:
`(Σ t · PV(cf_t)) / price()`, then divided by `payments_per_year`. -/
def macaulay_duration (b : Bond) : Except PyErr ℚ := do
  let bond_price ← b.price
  let cfs ← b.cashFlows
  let weighted_sum ← (List.enumFrom 1 cfs).foldlM
    (fun acc tcf => do
      let pv_cf ← FinancialCalculator.present_value tcf.2 b.periodic_yield tcf.1
      pure (acc + (tcf.1 : ℚ) * pv_cf))
    0
  let duration_in_periods ← divQ weighted_sum bond_price
  divQ duration_in_periods (b.payments_per_year : ℚ)

/-- `Bond.modified_duration`: `D_mac / (1 + periodic_yield)`. -/
def modified_duration (b : Bond) : Except PyErr ℚ := do
  let mac_dur ← b.macaulay_duration
  divQ mac_dur (1 + b.periodic_yield)

/-- `Bond.convexity`:
`(Σ cf_t · t · (t+1) / (1 + periodic_yield)^(t+2)) / price() / payments_per_year²`. -/
def convexity (b : Bond) : Except PyErr ℚ := do
  let bond_price ← b.price
  let cfs ← b.cashFlows
  let convexity_sum ← (List.enumFrom 1 cfs).foldlM
    (fun acc tcf => do
      let discount := Calculator.power (1 + b.periodic_yield) (tcf.1 + 2)
      let term ← divQ (tcf.2 * (tcf.1 : ℚ) * ((tcf.1 : ℚ) + 1)) discount
      pure (acc + term))
    0
  let per_price ← divQ convexity_sum bond_price
  divQ per_price ((b.payments_per_year : ℚ) ^ 2)

/-- `Bond.price_percentage_change`:
`-D_mod · Δy + 0.5 · C · Δy²`. -/
def price_percentage_change (b : Bond) (delta_yield : ℚ) : Except PyErr ℚ := do
  let d_mod ← b.modified_duration
  let conv ← b.convexity
  pure (-d_mod * delta_yield + 1 / 2 * conv * delta_yield ^ 2)

end Bond

/-!  ## Proof infrastructure: closed forms for the three loop sums  -/

/-- Mathematical closed form of the pricing loop: the sum of
`cf / (1 + y)^t` over the cash flows, with the first one at period `k`. -/
def pvSum (y : ℚ) : ℕ → List ℚ → ℚ
  | _, [] => 0
  | k, cf :: rest => cf / (1 + y) ^ k + pvSum y (k + 1) rest

/-- Mathematical closed form of the Macaulay loop: the sum of
`t * (cf / (1 + y)^t)`. -/
def wSum (y : ℚ) : ℕ → List ℚ → ℚ
  | _, [] => 0
  | k, cf :: rest => (k : ℚ) * (cf / (1 + y) ^ k) + wSum y (k + 1) rest

/-- Mathematical closed form of the convexity loop: the sum of
`cf * t * (t + 1) / (1 + y)^(t+2)`. -/
def cSum (y : ℚ) : ℕ → List ℚ → ℚ
  | _, [] => 0
  | k, cf :: rest => cf * (k : ℚ) * ((k : ℚ) + 1) / (1 + y) ^ (k + 2) + cSum y (k + 1) rest

/-- The bond of the spec's concrete scenario:
`Bond(face_value=1000, coupon_rate=0.06, yield_to_maturity=0.08,
maturity_years=5, payments_per_year=1)` after construction. -/
def exampleBond : Bond :=
  { face_value := 1000, coupon_rate := 6 / 100, yield_to_maturity := 8 / 100,
    maturity_years := 5, payments_per_year := 1, total_periods := 5,
    periodic_coupon := 60, periodic_yield := 2 / 25 }

/-- `Bond(1000, 0, 1, 1, 2)`: a zero-coupon bond with two payment periods
per year, used to examine the zero-coupon pricing property. -/
def zcBond2 : Bond :=
  { face_value := 1000, coupon_rate := 0, yield_to_maturity := 1,
    maturity_years := 1, payments_per_year := 2, total_periods := 2,
    periodic_coupon := 0, periodic_yield := 1 / 2 }

/-- `Bond(100, 1/20, 1/20, 2, 1)`: a bond priced at par. -/
def parBond : Bond :=
  { face_value := 100, coupon_rate := 1 / 20, yield_to_maturity := 1 / 20,
    maturity_years := 2, payments_per_year := 1, total_periods := 2,
    periodic_coupon := 5, periodic_yield := 1 / 20 }

/-- `Bond(1, -1, -1, 1, 1)`: coupon rate equals yield, but the periodic
yield is `-1`, so every discount factor is zero. -/
def ce4Bond : Bond :=
  { face_value := 1, coupon_rate := -1, yield_to_maturity := -1,
    maturity_years := 1, payments_per_year := 1, total_periods := 1,
    periodic_coupon := -1, periodic_yield := -1 }

/-- `Bond(-5/2, -2/5, 1, 2, 1)`: mixed-sign cash flows `[1, -3/2]` with a
nonzero price, giving a negative Macaulay duration. -/
def ce7Bond : Bond :=
  { face_value := -(5 / 2), coupon_rate := -(2 / 5), yield_to_maturity := 1,
    maturity_years := 2, payments_per_year := 1, total_periods := 2,
    periodic_coupon := 1, periodic_yield := 1 }

/-- A `foldlM` over `Except` whose step never fails is the plain `foldl`. -/
theorem foldlM_ok_of_ok {E α β : Type} (f : β → α → Except E β) (g : β → α → β)
    (l : List α) (h : ∀ b a, a ∈ l → f b a = .ok (g b a)) :
    ∀ b0 : β, l.foldlM f b0 = .ok (l.foldl g b0) := by
  induction l with
  | nil => intro b0; rfl
  | cons a l ih =>
    intro b0
    rw [List.foldlM_cons, h b0 a (List.mem_cons_self a l), List.foldl_cons]
    exact ih (fun b x hx => h b x (List.mem_cons_of_mem a hx)) (g b0 a)

theorem foldl_pv (y : ℚ) (l : List ℚ) :
    ∀ (k : ℕ) (a : ℚ),
      (List.enumFrom k l).foldl (fun acc tcf => acc + tcf.2 / (1 + y) ^ tcf.1) a
        = a + pvSum y k l := by
  induction l with
  | nil => intro k a; simp [pvSum]
  | cons cf rest ih =>
    intro k a
    simp only [List.enumFrom_cons, List.foldl_cons, pvSum]
    rw [ih (k + 1) (a + cf / (1 + y) ^ k)]
    ring

theorem foldl_w (y : ℚ) (l : List ℚ) :
    ∀ (k : ℕ) (a : ℚ),
      (List.enumFrom k l).foldl (fun acc tcf => acc + (tcf.1 : ℚ) * (tcf.2 / (1 + y) ^ tcf.1)) a
        = a + wSum y k l := by
  induction l with
  | nil => intro k a; simp [wSum]
  | cons cf rest ih =>
    intro k a
    simp only [List.enumFrom_cons, List.foldl_cons, wSum]
    rw [ih (k + 1) (a + (k : ℚ) * (cf / (1 + y) ^ k))]
    ring

theorem foldl_c (y : ℚ) (l : List ℚ) :
    ∀ (k : ℕ) (a : ℚ),
      (List.enumFrom k l).foldl
        (fun acc tcf => acc + tcf.2 * (tcf.1 : ℚ) * ((tcf.1 : ℚ) + 1) / (1 + y) ^ (tcf.1 + 2)) a
        = a + cSum y k l := by
  induction l with
  | nil => intro k a; simp [cSum]
  | cons cf rest ih =>
    intro k a
    simp only [List.enumFrom_cons, List.foldl_cons, cSum]
    rw [ih (k + 1) (a + cf * (k : ℚ) * ((k : ℚ) + 1) / (1 + y) ^ (k + 2))]
    ring

/-!  ## Inversion and evaluation lemmas  -/

theorem except_ok_bind {E A B : Type} (a : A) (f : A → Except E B) :
    (Except.ok a >>= f) = f a := rfl

theorem except_error_bind {E A B : Type} (e : E) (f : A → Except E B) :
    ((Except.error e : Except E A) >>= f) = Except.error e := rfl

theorem getLast?_replicate_succ (n : ℕ) (a : ℚ) :
    (List.replicate (n + 1) a).getLast? = some a := by
  induction n with
  | zero => rfl
  | succ m ih =>
    rw [List.replicate_succ, List.replicate_succ, List.getLast?_cons_cons,
      ← List.replicate_succ]
    exact ih

theorem dropLast_replicate_succ (n : ℕ) (a : ℚ) :
    (List.replicate (n + 1) a).dropLast = List.replicate n a := by
  induction n with
  | zero => rfl
  | succ m ih =>
    rw [List.replicate_succ, List.replicate_succ,
      List.dropLast_cons_of_ne_nil (List.cons_ne_nil a (List.replicate m a)),
      ← List.replicate_succ, ih, List.replicate_succ]

/-- Inversion of a successful `Bond.__init__`: the divisor was nonzero and
every field holds the value the constructor assigned. -/
theorem Bond.init_ok {fv cr ytm : ℚ} {my ppy : ℤ} {b : Bond}
    (h : Bond.init fv cr ytm my ppy = .ok b) :
    ppy ≠ 0 ∧
      b = { face_value := fv, coupon_rate := cr, yield_to_maturity := ytm,
            maturity_years := my, payments_per_year := ppy,
            total_periods := my * ppy,
            periodic_coupon := fv * cr / (ppy : ℚ),
            periodic_yield := ytm / (ppy : ℚ) } := by
  by_cases hp : (ppy : ℚ) = 0
  · rw [Bond.init] at h
    simp only [divQ, hp, if_true, if_pos, except_error_bind] at h
    exact absurd h (by simp)
  · constructor
    · intro h0
      exact hp (by rw [h0]; exact Int.cast_zero)
    · rw [Bond.init] at h
      simp only [divQ, hp, if_neg, ite_false, except_ok_bind] at h
      cases h
      rfl

/-- Successful construction for every nonzero `payments_per_year`. -/
theorem Bond.init_ok_of_ne {fv cr ytm : ℚ} {my ppy : ℤ} (hp : ppy ≠ 0) :
    Bond.init fv cr ytm my ppy =
      .ok { face_value := fv, coupon_rate := cr, yield_to_maturity := ytm,
            maturity_years := my, payments_per_year := ppy,
            total_periods := my * ppy,
            periodic_coupon := fv * cr / (ppy : ℚ),
            periodic_yield := ytm / (ppy : ℚ) } := by
  have hq : (ppy : ℚ) ≠ 0 := Int.cast_ne_zero.mpr hp
  rw [Bond.init]
  simp only [divQ, hq, ite_false, if_neg, except_ok_bind]
  rfl

/-- The cash-flow schedule of a bond with at least one period:
`total_periods - 1` copies of the periodic coupon, then coupon plus face
value. -/
theorem Bond.cashFlows_ok (b : Bond) (h : 1 ≤ b.total_periods) :
    b.cashFlows = .ok (List.replicate (b.total_periods.toNat - 1) b.periodic_coupon
      ++ [b.periodic_coupon + b.face_value]) := by
  obtain ⟨n, hn⟩ : ∃ n : ℕ, b.total_periods.toNat = n + 1 :=
    ⟨b.total_periods.toNat - 1, by omega⟩
  rw [Bond.cashFlows, hn, getLast?_replicate_succ, dropLast_replicate_succ]
  simp

/-- The cash-flow helper fails with `IndexError` when there are no
periods. -/
theorem Bond.cashFlows_err (b : Bond) (h : b.total_periods.toNat = 0) :
    b.cashFlows = .error .indexError := by
  rw [Bond.cashFlows, h]
  rfl

/-- When the periodic discount factor is nonzero, `price` succeeds on any
cash-flow schedule and returns the discounted sum. -/
theorem Bond.price_eval (b : Bond) {cfs : List ℚ} (hcf : b.cashFlows = .ok cfs)
    (hy : 1 + b.periodic_yield ≠ 0) :
    b.price = .ok (pvSum b.periodic_yield 1 cfs) := by
  have hstep : ∀ (acc : ℚ) (tcf : ℕ × ℚ), tcf ∈ List.enumFrom 1 cfs →
      (do
        let pv ← FinancialCalculator.present_value tcf.2 b.periodic_yield tcf.1
        pure (acc + pv)) = Except.ok (acc + tcf.2 / (1 + b.periodic_yield) ^ tcf.1) := by
    intro acc tcf _
    have hd : (1 + b.periodic_yield) ^ tcf.1 ≠ 0 := pow_ne_zero _ hy
    simp only [FinancialCalculator.present_value, Calculator.power, Calculator.divide, hd,
      ite_false, if_neg, except_ok_bind]
    rfl
  simp only [Bond.price, hcf, except_ok_bind]
  rw [foldlM_ok_of_ok _ _ _ hstep 0, foldl_pv, zero_add]

/-- Evaluation of `macaulay_duration` down to its two trailing divisions. -/
theorem Bond.macaulay_eval (b : Bond) {cfs : List ℚ} {p : ℚ}
    (hcf : b.cashFlows = .ok cfs) (hy : 1 + b.periodic_yield ≠ 0)
    (hp : b.price = .ok p) :
    b.macaulay_duration =
      (divQ (wSum b.periodic_yield 1 cfs) p >>= fun d =>
        divQ d (b.payments_per_year : ℚ)) := by
  have hstep : ∀ (acc : ℚ) (tcf : ℕ × ℚ), tcf ∈ List.enumFrom 1 cfs →
      (do
        let pv_cf ← FinancialCalculator.present_value tcf.2 b.periodic_yield tcf.1
        pure (acc + (tcf.1 : ℚ) * pv_cf))
        = Except.ok (acc + (tcf.1 : ℚ) * (tcf.2 / (1 + b.periodic_yield) ^ tcf.1)) := by
    intro acc tcf _
    have hd : (1 + b.periodic_yield) ^ tcf.1 ≠ 0 := pow_ne_zero _ hy
    simp only [FinancialCalculator.present_value, Calculator.power, Calculator.divide, hd,
      ite_false, if_neg, except_ok_bind]
    rfl
  simp only [Bond.macaulay_duration, hp, hcf, except_ok_bind]
  rw [foldlM_ok_of_ok _ _ _ hstep 0, except_ok_bind, foldl_w, zero_add]

/-- Evaluation of `convexity` down to its two trailing divisions. -/
theorem Bond.convexity_eval (b : Bond) {cfs : List ℚ} {p : ℚ}
    (hcf : b.cashFlows = .ok cfs) (hy : 1 + b.periodic_yield ≠ 0)
    (hp : b.price = .ok p) :
    b.convexity =
      (divQ (cSum b.periodic_yield 1 cfs) p >>= fun c =>
        divQ c ((b.payments_per_year : ℚ) ^ 2)) := by
  have hstep : ∀ (acc : ℚ) (tcf : ℕ × ℚ), tcf ∈ List.enumFrom 1 cfs →
      (do
        let term ← divQ (tcf.2 * (tcf.1 : ℚ) * ((tcf.1 : ℚ) + 1))
          (Calculator.power (1 + b.periodic_yield) (tcf.1 + 2))
        pure (acc + term))
        = Except.ok (acc + tcf.2 * (tcf.1 : ℚ) * ((tcf.1 : ℚ) + 1)
            / (1 + b.periodic_yield) ^ (tcf.1 + 2)) := by
    intro acc tcf _
    have hd : (1 + b.periodic_yield) ^ (tcf.1 + 2) ≠ 0 := pow_ne_zero _ hy
    simp only [divQ, Calculator.power, hd, ite_false, if_neg, except_ok_bind]
    rfl
  simp only [Bond.convexity, hp, hcf, except_ok_bind]
  rw [foldlM_ok_of_ok _ _ _ hstep 0, except_ok_bind, foldl_c, zero_add]

/-!  ## Arithmetic facts about the discounted sums  -/

/-- Par-bond identity: discounting `n + 1` coupon payments of `fv * y`
plus a final principal `fv`, starting at period `k + 1`, gives the face
value discounted back `k` periods. -/
theorem pvSum_par (y fv : ℚ) (hy : 1 + y ≠ 0) :
    ∀ (n k : ℕ), pvSum y (k + 1) (List.replicate n (fv * y) ++ [fv * y + fv])
      = fv / (1 + y) ^ k := by
  intro n
  induction n with
  | zero =>
    intro k
    simp only [List.replicate, List.nil_append, pvSum]
    field_simp
    ring
  | succ m ih =>
    intro k
    rw [List.replicate_succ, List.cons_append]
    simp only [pvSum]
    rw [ih (k + 1)]
    field_simp
    ring

/-- Zero-coupon closed form: discounting `n` zero coupons and a final
payment `fv`, starting at period `k + 1`. -/
theorem pvSum_zc (y fv : ℚ) :
    ∀ (n k : ℕ), pvSum y (k + 1) (List.replicate n 0 ++ [0 + fv])
      = fv / (1 + y) ^ (k + 1 + n) := by
  intro n
  induction n with
  | zero =>
    intro k
    simp [pvSum]
  | succ m ih =>
    intro k
    rw [List.replicate_succ, List.cons_append]
    simp only [pvSum]
    rw [ih (k + 1), zero_div, zero_add]
    have he : k + 1 + 1 + m = k + 1 + (m + 1) := by omega
    rw [he]

theorem pvSum_append (y : ℚ) :
    ∀ (l1 l2 : List ℚ) (k : ℕ),
      pvSum y k (l1 ++ l2) = pvSum y k l1 + pvSum y (k + l1.length) l2 := by
  intro l1
  induction l1 with
  | nil => intro l2 k; simp [pvSum]
  | cons a l ih =>
    intro l2 k
    simp only [List.cons_append, pvSum, List.length_cons, List.append_eq, ih l2 (k + 1)]
    have he : k + 1 + l.length = k + (l.length + 1) := by omega
    rw [he]
    ring

theorem pvSum_nonneg (y : ℚ) (hy1 : 0 < 1 + y) :
    ∀ (l : List ℚ) (k : ℕ), (∀ x ∈ l, 0 ≤ x) → 0 ≤ pvSum y k l := by
  intro l
  induction l with
  | nil => intro k _; exact le_refl 0
  | cons a l ih =>
    intro k h
    have h1 : 0 ≤ a / (1 + y) ^ k :=
      div_nonneg (h a (List.mem_cons_self a l)) (pow_pos hy1 k).le
    have h2 : 0 ≤ pvSum y (k + 1) l := ih (k + 1) (fun x hx => h x (List.mem_cons_of_mem a hx))
    simpa [pvSum] using add_nonneg h1 h2

theorem wSum_nonneg (y : ℚ) (hy1 : 0 < 1 + y) :
    ∀ (l : List ℚ) (k : ℕ), (∀ x ∈ l, 0 ≤ x) → 0 ≤ wSum y k l := by
  intro l
  induction l with
  | nil => intro k _; exact le_refl 0
  | cons a l ih =>
    intro k h
    have h1 : 0 ≤ (k : ℚ) * (a / (1 + y) ^ k) :=
      mul_nonneg (Nat.cast_nonneg k)
        (div_nonneg (h a (List.mem_cons_self a l)) (pow_pos hy1 k).le)
    have h2 : 0 ≤ wSum y (k + 1) l := ih (k + 1) (fun x hx => h x (List.mem_cons_of_mem a hx))
    simpa [wSum] using add_nonneg h1 h2

/-!  ## Claims  -/

/-- C6: `divide(x, 0)` raises the division-by-zero error for every `x`
(it never returns a value), and for every `b ≠ 0`, `divide(a, b)` returns
`a / b` without error. -/
theorem c6_divide (a b : ℚ) (hb : b ≠ 0) :
    Calculator.divide a 0 = .error .zeroDivision ∧
      Calculator.divide a b = .ok (a / b) := by
  refine ⟨rfl, ?_⟩
  simp [Calculator.divide, hb]

theorem c6_divide_witness :
    Calculator.divide 7 0 = .error .zeroDivision ∧
      Calculator.divide 7 2 = .ok (7 / 2) :=
  c6_divide 7 2 (by decide)

/-- C9: constructing a Bond with `payments_per_year = 0` raises a
division-by-zero error during construction; with any nonzero
`payments_per_year` construction succeeds whatever the other arguments
are (no further validation: negative rates and zero or negative
maturities are accepted). -/
theorem c9_init (fv cr ytm : ℚ) (my ppy : ℤ) (hp : ppy ≠ 0) :
    Bond.init fv cr ytm my 0 = .error .zeroDivision ∧
      ∃ b : Bond, Bond.init fv cr ytm my ppy = .ok b := by
  constructor
  · rw [Bond.init]
    simp [divQ, except_error_bind]
  · exact ⟨_, Bond.init_ok_of_ne hp⟩

theorem c9_init_witness :
    Bond.init 1000 (-(5 / 100)) (8 / 100) (-3) 0 = .error .zeroDivision ∧
      ∃ b : Bond, Bond.init 1000 (-(5 / 100)) (8 / 100) (-3) 4 = .ok b :=
  c9_init 1000 (-(5 / 100)) (8 / 100) (-3) 4 (by decide)

/-- C10: a constructed Bond with `total_periods = 0` makes the cash-flow
helper index into an empty list, so every query method fails with an
`IndexError`, which is not the division-by-zero error. -/
theorem c10_empty (fv cr ytm : ℚ) (my ppy : ℤ) (b : Bond) (dy : ℚ)
    (_hb : Bond.init fv cr ytm my ppy = .ok b) (h0 : b.total_periods = 0) :
    b.price = .error .indexError ∧
      b.macaulay_duration = .error .indexError ∧
      b.modified_duration = .error .indexError ∧
      b.convexity = .error .indexError ∧
      b.price_percentage_change dy = .error .indexError ∧
      PyErr.indexError ≠ PyErr.zeroDivision := by
  have hcf : b.cashFlows = .error .indexError := Bond.cashFlows_err b (by omega)
  have hp : b.price = .error .indexError := by
    simp only [Bond.price, hcf, except_error_bind]
  have hmac : b.macaulay_duration = .error .indexError := by
    simp only [Bond.macaulay_duration, hp, except_error_bind]
  have hmod : b.modified_duration = .error .indexError := by
    simp only [Bond.modified_duration, hmac, except_error_bind]
  have hconv : b.convexity = .error .indexError := by
    simp only [Bond.convexity, hp, except_error_bind]
  have hppc : b.price_percentage_change dy = .error .indexError := by
    simp only [Bond.price_percentage_change, hmod, except_error_bind]
  exact ⟨hp, hmac, hmod, hconv, hppc, by decide⟩

theorem c10_empty_witness :
    ∃ b : Bond, Bond.init 1000 (6 / 100) (8 / 100) 0 1 = .ok b ∧
      b.price = .error .indexError ∧
      b.macaulay_duration = .error .indexError ∧
      b.modified_duration = .error .indexError ∧
      b.convexity = .error .indexError ∧
      b.price_percentage_change (1 / 100) = .error .indexError ∧
      PyErr.indexError ≠ PyErr.zeroDivision := by
  have hinit : Bond.init 1000 (6 / 100) (8 / 100) 0 1 =
      .ok { face_value := 1000, coupon_rate := 6 / 100, yield_to_maturity := 8 / 100,
            maturity_years := 0, payments_per_year := 1, total_periods := 0,
            periodic_coupon := 60, periodic_yield := 2 / 25 } := by
    rw [Bond.init_ok_of_ne (by decide)]
    norm_num
  exact ⟨_, hinit, c10_empty 1000 (6 / 100) (8 / 100) 0 1 _ (1 / 100) hinit (by decide)⟩

/-- C8: whenever `price_percentage_change(0)` returns a value at all, that
value is exactly `0`. -/
theorem c8_ppc_zero (b : Bond) (v : ℚ) (h : b.price_percentage_change 0 = .ok v) :
    v = 0 := by
  rw [Bond.price_percentage_change] at h
  cases hmod : b.modified_duration with
  | error e => rw [hmod, except_error_bind] at h; exact absurd h (by simp)
  | ok d =>
    rw [hmod, except_ok_bind] at h
    cases hconv : b.convexity with
    | error e => rw [hconv, except_error_bind] at h; exact absurd h (by simp)
    | ok c =>
      rw [hconv, except_ok_bind] at h
      have hv : -d * 0 + 1 / 2 * c * 0 ^ 2 = v := by
        have := h
        simp only [pure, Except.pure, Except.ok.injEq] at this
        exact this
      rw [← hv]
      ring

/-!  ## Evaluation of the concrete scenario bond  -/

theorem exampleBond_init :
    Bond.init 1000 (6 / 100) (8 / 100) 5 1 = .ok exampleBond := by
  rw [Bond.init_ok_of_ne (by decide)]
  norm_num [exampleBond]

theorem exampleBond_cashFlows :
    exampleBond.cashFlows = .ok [60, 60, 60, 60, 1060] := by
  rw [Bond.cashFlows_ok exampleBond (by decide)]
  norm_num [exampleBond, List.replicate]

theorem exampleBond_price :
    exampleBond.price = .ok (13203086500 / 14348907) := by
  rw [Bond.price_eval exampleBond exampleBond_cashFlows (by norm_num [exampleBond])]
  norm_num [exampleBond, pvSum]

theorem exampleBond_macaulay :
    exampleBond.macaulay_duration = .ok (117225523 / 26406173) := by
  rw [Bond.macaulay_eval exampleBond exampleBond_cashFlows (by norm_num [exampleBond])
    exampleBond_price]
  norm_num [wSum, divQ, exampleBond, except_ok_bind]

theorem exampleBond_modified :
    exampleBond.modified_duration = .ok (2930638075 / 712966671) := by
  simp only [Bond.modified_duration, exampleBond_macaulay, except_ok_bind]
  norm_num [divQ, exampleBond]

theorem exampleBond_convexity :
    exampleBond.convexity = .ok (140594738750 / 6416700039) := by
  rw [Bond.convexity_eval exampleBond exampleBond_cashFlows (by norm_num [exampleBond])
    exampleBond_price]
  norm_num [cSum, divQ, exampleBond, except_ok_bind]

theorem exampleBond_ppc :
    exampleBond.price_percentage_change (1 / 100) = .ok (-4107643037 / 102667200624) := by
  simp only [Bond.price_percentage_change, exampleBond_modified, exampleBond_convexity,
    except_ok_bind]
  norm_num [pure, Except.pure]

theorem c8_ppc_zero_witness :
    exampleBond.price_percentage_change 0 = .ok 0 ∧ (0 : ℚ) = 0 := by
  have h : exampleBond.price_percentage_change 0 = .ok 0 := by
    rw [Bond.price_percentage_change, exampleBond_modified, except_ok_bind,
      exampleBond_convexity, except_ok_bind]
    norm_num [pure, Except.pure]
  exact ⟨h, c8_ppc_zero exampleBond 0 h⟩

/-- C3: for every constructed Bond with at least one period, the
cash-flow schedule has exactly `total_periods` entries, every entry
except the last equals the periodic coupon
`face_value * coupon_rate / payments_per_year`, and the last entry is
the periodic coupon plus the face value. -/
theorem c3_cash_flows (fv cr ytm : ℚ) (my ppy : ℤ) (b : Bond)
    (hb : Bond.init fv cr ytm my ppy = .ok b) (h1 : 1 ≤ b.total_periods) :
    ∃ l : List ℚ, b.cashFlows = .ok l ∧
      (l.length : ℤ) = b.total_periods ∧
      (∀ (i : ℕ) (hi : i + 1 < l.length),
        l.get ⟨i, Nat.lt_of_succ_lt hi⟩ = fv * cr / (ppy : ℚ)) ∧
      l.getLast? = some (fv * cr / (ppy : ℚ) + fv) := by
  obtain ⟨hppy, hbe⟩ := Bond.init_ok hb
  have hcoupon : b.periodic_coupon = fv * cr / (ppy : ℚ) := by rw [hbe]
  have hface : b.face_value = fv := by rw [hbe]
  have hcf := Bond.cashFlows_ok b h1
  refine ⟨_, hcf, ?_, ?_, ?_⟩
  · rw [List.length_append, List.length_replicate, List.length_singleton]
    omega
  · intro i hi
    rw [List.length_append, List.length_replicate, List.length_singleton] at hi
    have hlt : i < (List.replicate (b.total_periods.toNat - 1) b.periodic_coupon).length := by
      rw [List.length_replicate]
      omega
    rw [List.get_eq_getElem, List.getElem_append_left hlt, List.getElem_replicate, hcoupon]
  · rw [List.getLast?_concat, hcoupon, hface]

theorem c3_cash_flows_witness :
    ∃ l : List ℚ, exampleBond.cashFlows = .ok l ∧
      (l.length : ℤ) = exampleBond.total_periods ∧
      (∀ (i : ℕ) (hi : i + 1 < l.length),
        l.get ⟨i, Nat.lt_of_succ_lt hi⟩ = 1000 * (6 / 100) / ((1 : ℤ) : ℚ)) ∧
      l.getLast? = some (1000 * (6 / 100) / ((1 : ℤ) : ℚ) + 1000) :=
  c3_cash_flows 1000 (6 / 100) (8 / 100) 5 1 exampleBond exampleBond_init (by decide)

/-- C1, counterexample: for the zero-coupon bond
`Bond(1000, 0, 1, 1, 2)` (positive arguments, `payments_per_year = 2`),
`price()` is `4000/9` while
`present_value(face_value, yield_to_maturity, maturity_years)` is `500`,
so the claimed equality fails for `payments_per_year ≠ 1`. -/
theorem c1_zero_coupon_counterexample :
    (Bond.init 1000 0 1 1 2).bind Bond.price = .ok (4000 / 9) ∧
      FinancialCalculator.present_value 1000 1 1 = .ok 500 ∧
      (4000 / 9 : ℚ) ≠ 500 := by
  have hinit : Bond.init 1000 0 1 1 2 = .ok zcBond2 := by
    rw [Bond.init_ok_of_ne (by decide)]
    norm_num [zcBond2]
  have hcf : zcBond2.cashFlows = .ok [0, 1000] := by
    rw [Bond.cashFlows_ok zcBond2 (by decide)]
    norm_num [zcBond2, List.replicate]
  have hp : zcBond2.price = .ok (4000 / 9) := by
    rw [Bond.price_eval zcBond2 hcf (by norm_num [zcBond2])]
    norm_num [pvSum, zcBond2]
  refine ⟨?_, ?_, by norm_num⟩
  · rw [hinit]
    exact hp
  · norm_num [FinancialCalculator.present_value, Calculator.power, Calculator.divide]

/-- C1, amended: with `payments_per_year = 1` (the bundled-in claim that
the identity holds for every `payments_per_year` is false, see the
counterexample), a zero-coupon bond's `price()` equals
`present_value(face_value, yield_to_maturity, maturity_years)` exactly,
for all positive face value, yield and maturity. -/
theorem c1_zero_coupon_amended (fv ytm : ℚ) (my : ℤ) (b : Bond)
    (hb : Bond.init fv 0 ytm my 1 = .ok b)
    (_hfv : 0 < fv) (hytm : 0 < ytm) (hmy : 1 ≤ my) :
    b.price = FinancialCalculator.present_value fv ytm my.toNat := by
  obtain ⟨-, hbe⟩ := Bond.init_ok hb
  have hy : b.periodic_yield = ytm := by rw [hbe]; simp
  have hc : b.periodic_coupon = 0 := by rw [hbe]; simp
  have hfv2 : b.face_value = fv := by rw [hbe]
  have htot : b.total_periods = my := by rw [hbe]; simp
  have h1y : (1 : ℚ) + ytm ≠ 0 := by positivity
  obtain ⟨m, hm⟩ : ∃ m : ℕ, my.toNat = m + 1 := ⟨my.toNat - 1, by omega⟩
  have hcf : b.cashFlows = .ok (List.replicate m 0 ++ [0 + fv]) := by
    rw [Bond.cashFlows_ok b (htot ▸ hmy), hc, hfv2, htot, hm]
    simp
  have hp := Bond.price_eval b hcf (by rw [hy]; exact h1y)
  have hpar := pvSum_zc ytm fv m 0
  simp only [Nat.zero_add] at hpar
  rw [hp, hy, hpar]
  rw [FinancialCalculator.present_value, Calculator.power]
  have hd : (1 + ytm) ^ my.toNat ≠ 0 := pow_ne_zero _ h1y
  rw [Calculator.divide, if_neg hd, hm]
  rw [Nat.add_comm m 1]

theorem c1_zero_coupon_witness :
    ∃ b : Bond, Bond.init 500 0 (1 / 10) 3 1 = .ok b ∧
      b.price = FinancialCalculator.present_value 500 (1 / 10) (Int.toNat 3) := by
  have hinit : Bond.init 500 0 (1 / 10) 3 1 =
      .ok { face_value := 500, coupon_rate := 0, yield_to_maturity := 1 / 10,
            maturity_years := 3, payments_per_year := 1, total_periods := 3,
            periodic_coupon := 0, periodic_yield := 1 / 10 } := by
    rw [Bond.init_ok_of_ne (by decide)]
    norm_num
  exact ⟨_, hinit,
    c1_zero_coupon_amended 500 (1 / 10) 3 _ hinit (by norm_num) (by norm_num) (by decide)⟩

/-- C4, counterexample: `Bond(1, -1, -1, 1, 1)` has positive face value,
positive maturity, positive payments per year and
`coupon_rate = yield_to_maturity`, yet `price()` raises the
division-by-zero error instead of returning the face value. -/
theorem c4_par_counterexample :
    (Bond.init 1 (-1) (-1) 1 1).bind Bond.price = .error .zeroDivision ∧
      (Bond.init 1 (-1) (-1) 1 1).bind Bond.price ≠ .ok 1 := by
  have hinit : Bond.init 1 (-1) (-1) 1 1 = .ok ce4Bond := by
    rw [Bond.init_ok_of_ne (by decide)]
    norm_num [ce4Bond]
  have hcf : ce4Bond.cashFlows = .ok [0] := by
    rw [Bond.cashFlows_ok ce4Bond (by decide)]
    norm_num [ce4Bond, List.replicate]
  have hp : ce4Bond.price = .error .zeroDivision := by
    rw [Bond.price, hcf, except_ok_bind]
    simp only [List.enumFrom_cons, List.enumFrom_nil, List.foldlM_cons,
      FinancialCalculator.present_value, Calculator.power, Calculator.divide]
    norm_num [ce4Bond, except_error_bind]
  rw [hinit]
  exact ⟨hp, by rw [show (Except.ok ce4Bond).bind Bond.price = ce4Bond.price from rfl, hp]; simp⟩

/-- C4, amended: with the additional hypothesis that the periodic
discount factor `1 + yield_to_maturity / payments_per_year` is nonzero
(the counterexample shows the claim fails without it), a bond with
`coupon_rate = yield_to_maturity`, positive face value, maturity and
payments per year is priced exactly at its face value. -/
theorem c4_par_amended (fv cr : ℚ) (my ppy : ℤ) (b : Bond)
    (hb : Bond.init fv cr cr my ppy = .ok b)
    (_hfv : 0 < fv) (hmy : 1 ≤ my) (hppy : 1 ≤ ppy)
    (hy : 1 + b.periodic_yield ≠ 0) :
    b.price = .ok fv := by
  obtain ⟨-, hbe⟩ := Bond.init_ok hb
  have hcy : b.periodic_coupon = fv * b.periodic_yield := by
    rw [hbe]
    exact mul_div_assoc fv cr ((ppy : ℚ))
  have hfv2 : b.face_value = fv := by rw [hbe]
  have htot1 : 1 ≤ b.total_periods := by
    rw [hbe]
    show 1 ≤ my * ppy
    nlinarith
  have hcf := Bond.cashFlows_ok b htot1
  rw [hcy, hfv2] at hcf
  rw [Bond.price_eval b hcf hy]
  have hpar := pvSum_par b.periodic_yield fv hy (b.total_periods.toNat - 1) 0
  simp only [Nat.zero_add, pow_zero, div_one] at hpar
  rw [hpar]

theorem c4_par_witness : parBond.price = .ok 100 := by
  have hinit : Bond.init 100 (1 / 20) (1 / 20) 2 1 = .ok parBond := by
    rw [Bond.init_ok_of_ne (by decide)]
    norm_num [parBond]
  exact c4_par_amended 100 (1 / 20) 2 1 parBond hinit (by norm_num) (by decide) (by decide)
    (by norm_num [parBond])

/-- C2, counterexample: the constructed bond `Bond(1, 1/2, 1/10, 0, 1)`
fails in `price()` with an `IndexError`, which is not a division-by-zero
error, so division-by-zero with `price() = 0` is not the only possible
failure of a query method. -/
theorem c2_error_counterexample :
    (Bond.init 1 (1 / 2) (1 / 10) 0 1).bind Bond.price = .error .indexError ∧
      PyErr.indexError ≠ PyErr.zeroDivision := by
  have hinit : Bond.init 1 (1 / 2) (1 / 10) 0 1 =
      .ok { face_value := 1, coupon_rate := 1 / 2, yield_to_maturity := 1 / 10,
            maturity_years := 0, payments_per_year := 1, total_periods := 0,
            periodic_coupon := 1 / 2, periodic_yield := 1 / 10 } := by
    rw [Bond.init_ok_of_ne (by decide)]
    norm_num
  rw [hinit]
  constructor
  · show Bond.price _ = _
    rw [Bond.price, Bond.cashFlows_err _ (by decide), except_error_bind]
  · decide

/-- C2, amended: for every constructed Bond with at least one period and
a nonzero periodic discount factor (the counterexample shows the claim
fails without these two restrictions), `price()` itself always succeeds,
and each of the four other query methods succeeds when `price() ≠ 0` and
fails with precisely the division-by-zero error when `price() = 0`. -/
theorem c2_error_amended (fv cr ytm : ℚ) (my ppy : ℤ) (b : Bond) (dy : ℚ)
    (hb : Bond.init fv cr ytm my ppy = .ok b)
    (h1 : 1 ≤ b.total_periods) (hy : 1 + b.periodic_yield ≠ 0) :
    ∃ p : ℚ, b.price = .ok p ∧
      (p ≠ 0 →
        (∃ v, b.macaulay_duration = .ok v) ∧
        (∃ v, b.modified_duration = .ok v) ∧
        (∃ v, b.convexity = .ok v) ∧
        (∃ v, b.price_percentage_change dy = .ok v)) ∧
      (p = 0 →
        b.macaulay_duration = .error .zeroDivision ∧
        b.modified_duration = .error .zeroDivision ∧
        b.convexity = .error .zeroDivision ∧
        b.price_percentage_change dy = .error .zeroDivision) := by
  obtain ⟨hppy, hbe⟩ := Bond.init_ok hb
  have hppyQ : (b.payments_per_year : ℚ) ≠ 0 := by
    rw [hbe]
    exact Int.cast_ne_zero.mpr hppy
  have hppyQ2 : ((b.payments_per_year : ℚ)) ^ 2 ≠ 0 := pow_ne_zero 2 hppyQ
  obtain ⟨L, hcf⟩ : ∃ L, b.cashFlows = .ok L := ⟨_, Bond.cashFlows_ok b h1⟩
  have hp := Bond.price_eval b hcf hy
  refine ⟨_, hp, ?_, ?_⟩
  · intro hp0
    have hmac : b.macaulay_duration = .ok (wSum b.periodic_yield 1 L
        / pvSum b.periodic_yield 1 L / (b.payments_per_year : ℚ)) := by
      rw [Bond.macaulay_eval b hcf hy hp, divQ, if_neg hp0, except_ok_bind, divQ, if_neg hppyQ]
    have hmod : b.modified_duration = .ok (wSum b.periodic_yield 1 L
        / pvSum b.periodic_yield 1 L / (b.payments_per_year : ℚ) / (1 + b.periodic_yield)) := by
      rw [Bond.modified_duration, hmac, except_ok_bind, divQ, if_neg hy]
    have hconv : b.convexity = .ok (cSum b.periodic_yield 1 L
        / pvSum b.periodic_yield 1 L / ((b.payments_per_year : ℚ)) ^ 2) := by
      rw [Bond.convexity_eval b hcf hy hp, divQ, if_neg hp0, except_ok_bind, divQ, if_neg hppyQ2]
    have hppc : b.price_percentage_change dy = .ok
        (-(wSum b.periodic_yield 1 L / pvSum b.periodic_yield 1 L
            / (b.payments_per_year : ℚ) / (1 + b.periodic_yield)) * dy
          + 1 / 2 * (cSum b.periodic_yield 1 L / pvSum b.periodic_yield 1 L
            / ((b.payments_per_year : ℚ)) ^ 2) * dy ^ 2) := by
      rw [Bond.price_percentage_change, hmod, except_ok_bind, hconv, except_ok_bind]
      rfl
    exact ⟨⟨_, hmac⟩, ⟨_, hmod⟩, ⟨_, hconv⟩, ⟨_, hppc⟩⟩
  · intro hp0
    have hmac : b.macaulay_duration = .error .zeroDivision := by
      rw [Bond.macaulay_eval b hcf hy hp, divQ, if_pos hp0, except_error_bind]
    have hmod : b.modified_duration = .error .zeroDivision := by
      rw [Bond.modified_duration, hmac, except_error_bind]
    have hconv : b.convexity = .error .zeroDivision := by
      rw [Bond.convexity_eval b hcf hy hp, divQ, if_pos hp0, except_error_bind]
    refine ⟨hmac, hmod, hconv, ?_⟩
    rw [Bond.price_percentage_change, hmod, except_error_bind]

theorem c2_error_witness :
    ∃ p : ℚ, exampleBond.price = .ok p ∧
      (p ≠ 0 →
        (∃ v, exampleBond.macaulay_duration = .ok v) ∧
        (∃ v, exampleBond.modified_duration = .ok v) ∧
        (∃ v, exampleBond.convexity = .ok v) ∧
        (∃ v, exampleBond.price_percentage_change (1 / 100) = .ok v)) ∧
      (p = 0 →
        exampleBond.macaulay_duration = .error .zeroDivision ∧
        exampleBond.modified_duration = .error .zeroDivision ∧
        exampleBond.convexity = .error .zeroDivision ∧
        exampleBond.price_percentage_change (1 / 100) = .error .zeroDivision) :=
  c2_error_amended 1000 (6 / 100) (8 / 100) 5 1 exampleBond (1 / 100) exampleBond_init
    (by decide) (by norm_num [exampleBond])

/-- C7, counterexample: `Bond(-5/2, -2/5, 1, 2, 1)` has
`yield_to_maturity = 1 ≥ 0` and a nonzero price `1/8`, yet
`macaulay_duration() = -2` and `modified_duration() = -1`, and
`-1 ≤ -2` is false: the claimed inequality fails for bonds with
mixed-sign cash flows. -/
theorem c7_duration_counterexample :
    (Bond.init (-(5 / 2)) (-(2 / 5)) 1 2 1).bind Bond.price = .ok (1 / 8) ∧
      (1 / 8 : ℚ) ≠ 0 ∧
      (Bond.init (-(5 / 2)) (-(2 / 5)) 1 2 1).bind Bond.macaulay_duration = .ok (-2) ∧
      (Bond.init (-(5 / 2)) (-(2 / 5)) 1 2 1).bind Bond.modified_duration = .ok (-1) ∧
      ¬((-1 : ℚ) ≤ -2) := by
  have hinit : Bond.init (-(5 / 2)) (-(2 / 5)) 1 2 1 = .ok ce7Bond := by
    rw [Bond.init_ok_of_ne (by decide)]
    norm_num [ce7Bond]
  have hcf : ce7Bond.cashFlows = .ok [1, -(3 / 2)] := by
    rw [Bond.cashFlows_ok ce7Bond (by decide)]
    norm_num [ce7Bond, List.replicate]
  have hp : ce7Bond.price = .ok (1 / 8) := by
    rw [Bond.price_eval ce7Bond hcf (by norm_num [ce7Bond])]
    norm_num [pvSum, ce7Bond]
  have hmac : ce7Bond.macaulay_duration = .ok (-2) := by
    rw [Bond.macaulay_eval ce7Bond hcf (by norm_num [ce7Bond]) hp]
    norm_num [wSum, divQ, ce7Bond, except_ok_bind]
  have hmod : ce7Bond.modified_duration = .ok (-1) := by
    rw [Bond.modified_duration, hmac, except_ok_bind]
    norm_num [divQ, ce7Bond]
  rw [hinit]
  exact ⟨hp, by norm_num, hmac, hmod, by norm_num⟩

/-- C7, amended: for bonds within the spec's data model — positive face
value, nonnegative coupon rate, nonnegative yield, positive maturity and
payments per year (the counterexample shows the inequality fails for a
negative face value outside the data model) — both durations are defined
and `modified_duration() ≤ macaulay_duration()`. -/
theorem c7_duration_amended (fv cr ytm : ℚ) (my ppy : ℤ) (b : Bond)
    (hb : Bond.init fv cr ytm my ppy = .ok b)
    (hfv : 0 < fv) (hcr : 0 ≤ cr) (hytm : 0 ≤ ytm) (hmy : 1 ≤ my) (hppy : 1 ≤ ppy) :
    ∃ dmac dmod : ℚ, b.macaulay_duration = .ok dmac ∧
      b.modified_duration = .ok dmod ∧ dmod ≤ dmac := by
  obtain ⟨hppy0, hbe⟩ := Bond.init_ok hb
  have hppyQ0 : (0 : ℚ) < (ppy : ℚ) := Int.cast_pos.mpr (by omega)
  have hppyQ : (0 : ℚ) < (b.payments_per_year : ℚ) := by
    rw [hbe]
    exact hppyQ0
  have hy0 : 0 ≤ b.periodic_yield := by
    rw [hbe]
    exact div_nonneg hytm hppyQ0.le
  have h1y : (0 : ℚ) < 1 + b.periodic_yield := by linarith
  have hyne : 1 + b.periodic_yield ≠ 0 := h1y.ne'
  have hc0 : 0 ≤ b.periodic_coupon := by
    rw [hbe]
    exact div_nonneg (mul_nonneg hfv.le hcr) hppyQ0.le
  have hfv2 : b.face_value = fv := by rw [hbe]
  have htot1 : 1 ≤ b.total_periods := by
    rw [hbe]
    show 1 ≤ my * ppy
    nlinarith
  have hcf := Bond.cashFlows_ok b htot1
  have hmem : ∀ x ∈ List.replicate (b.total_periods.toNat - 1) b.periodic_coupon
      ++ [b.periodic_coupon + b.face_value], 0 ≤ x := by
    intro x hx
    rcases List.mem_append.mp hx with hx | hx
    · rw [List.eq_of_mem_replicate hx]
      exact hc0
    · rw [List.mem_singleton.mp hx, hfv2]
      linarith
  have hW : 0 ≤ wSum b.periodic_yield 1 (List.replicate (b.total_periods.toNat - 1)
      b.periodic_coupon ++ [b.periodic_coupon + b.face_value]) :=
    wSum_nonneg b.periodic_yield h1y _ 1 hmem
  have hP : 0 < pvSum b.periodic_yield 1 (List.replicate (b.total_periods.toNat - 1)
      b.periodic_coupon ++ [b.periodic_coupon + b.face_value]) := by
    rw [pvSum_append]
    have h1 : 0 ≤ pvSum b.periodic_yield 1
        (List.replicate (b.total_periods.toNat - 1) b.periodic_coupon) :=
      pvSum_nonneg b.periodic_yield h1y _ 1
        (fun x hx => by rw [List.eq_of_mem_replicate hx]; exact hc0)
    have h2 : 0 < pvSum b.periodic_yield
        (1 + (List.replicate (b.total_periods.toNat - 1) b.periodic_coupon).length)
        [b.periodic_coupon + b.face_value] := by
      simp only [pvSum]
      have : 0 < (b.periodic_coupon + b.face_value) / (1 + b.periodic_yield)
          ^ (1 + (List.replicate (b.total_periods.toNat - 1) b.periodic_coupon).length) := by
        apply div_pos
        · rw [hfv2]
          linarith
        · exact pow_pos h1y _
      linarith
    linarith
  have hp := Bond.price_eval b hcf hyne
  have hmac : b.macaulay_duration = .ok (wSum b.periodic_yield 1
      (List.replicate (b.total_periods.toNat - 1) b.periodic_coupon
        ++ [b.periodic_coupon + b.face_value])
      / pvSum b.periodic_yield 1 (List.replicate (b.total_periods.toNat - 1)
        b.periodic_coupon ++ [b.periodic_coupon + b.face_value])
      / (b.payments_per_year : ℚ)) := by
    rw [Bond.macaulay_eval b hcf hyne hp, divQ, if_neg hP.ne', except_ok_bind,
      divQ, if_neg hppyQ.ne']
  have hdmac0 : 0 ≤ wSum b.periodic_yield 1
      (List.replicate (b.total_periods.toNat - 1) b.periodic_coupon
        ++ [b.periodic_coupon + b.face_value])
      / pvSum b.periodic_yield 1 (List.replicate (b.total_periods.toNat - 1)
        b.periodic_coupon ++ [b.periodic_coupon + b.face_value])
      / (b.payments_per_year : ℚ) :=
    div_nonneg (div_nonneg hW hP.le) hppyQ.le
  have hmod : b.modified_duration = .ok (wSum b.periodic_yield 1
      (List.replicate (b.total_periods.toNat - 1) b.periodic_coupon
        ++ [b.periodic_coupon + b.face_value])
      / pvSum b.periodic_yield 1 (List.replicate (b.total_periods.toNat - 1)
        b.periodic_coupon ++ [b.periodic_coupon + b.face_value])
      / (b.payments_per_year : ℚ) / (1 + b.periodic_yield)) := by
    rw [Bond.modified_duration, hmac, except_ok_bind, divQ, if_neg hyne]
  exact ⟨_, _, hmac, hmod, div_le_self hdmac0 (by linarith)⟩

theorem c7_duration_witness :
    ∃ dmac dmod : ℚ, exampleBond.macaulay_duration = .ok dmac ∧
      exampleBond.modified_duration = .ok dmod ∧ dmod ≤ dmac :=
  c7_duration_amended 1000 (6 / 100) (8 / 100) 5 1 exampleBond exampleBond_init
    (by norm_num) (by norm_num) (by norm_num) (by decide) (by decide)

/-- C5, counterexample: for the scenario bond
`Bond(1000, 0.06, 0.08, 5, 1)`, `price_percentage_change(0.01)` is
exactly `-4107643037/102667200624  ≈ -0.0400`, which is not within the
four-decimal tolerance of the claimed `-0.0411`. -/
theorem c5_scenario_counterexample :
    Bond.init 1000 (6 / 100) (8 / 100) 5 1 = .ok exampleBond ∧
      exampleBond.price_percentage_change (1 / 100) = .ok (-4107643037 / 102667200624) ∧
      ¬(|(-4107643037 / 102667200624 : ℚ) - (-(411 / 10000))| ≤ 1 / 20000) :=
  ⟨exampleBond_init, exampleBond_ppc, by norm_num [abs_le]⟩

/-- C5, amended: the scenario bond's price, Macaulay duration and
modified duration are within the implied tolerances of `920.15`, `4.44`
and `4.11`, but `price_percentage_change(0.01)` is approximately
`-0.0400` (the duration term `-0.0411` plus the convexity correction
`+0.0011`), not `-0.0411`. -/
theorem c5_scenario_amended :
    Bond.init 1000 (6 / 100) (8 / 100) 5 1 = .ok exampleBond ∧
      exampleBond.price = .ok (13203086500 / 14348907) ∧
      |(13203086500 / 14348907 : ℚ) - 92015 / 100| ≤ 1 / 200 ∧
      exampleBond.macaulay_duration = .ok (117225523 / 26406173) ∧
      |(117225523 / 26406173 : ℚ) - 444 / 100| ≤ 1 / 200 ∧
      exampleBond.modified_duration = .ok (2930638075 / 712966671) ∧
      |(2930638075 / 712966671 : ℚ) - 411 / 100| ≤ 1 / 200 ∧
      exampleBond.price_percentage_change (1 / 100) = .ok (-4107643037 / 102667200624) ∧
      |(-4107643037 / 102667200624 : ℚ) - (-(400 / 10000))| ≤ 1 / 20000 :=
  ⟨exampleBond_init, exampleBond_price, by norm_num [abs_le],
    exampleBond_macaulay, by norm_num [abs_le],
    exampleBond_modified, by norm_num [abs_le],
    exampleBond_ppc, by norm_num [abs_le]⟩
